import Mathlib

/-!
Verification of the instruction-semantics layer of a 32-bit x86 dynamic
binary translator (register/flag state access, operand dispatch,
effective-address computation, conditional control-flow joining and
block-function emission), shallowly embedded from the Rust sources
`src/types.rs`, `src/backend.rs` and `src/llvm/backend.rs`.
-/

set_option autoImplicit false

namespace RustyX86

/-! ## Type and operand model, embedded from `src/types.rs` -/

/-- The eight canonical 32-bit registers; the numbers correspond to
register numbers in ModR/M encoding (`FullSizeGeneralPurposeRegister`
in `src/types.rs`). -/
inductive FullSizeGeneralPurposeRegister where
  | EAX | EBX | ECX | EDX | ESP | EBP | ESI | EDI
  deriving DecidableEq, Repr

/-- The enum discriminants EAX = 0 .. EDI = 7 of
`FullSizeGeneralPurposeRegister`, used as the index into the
`gp_regs` array of the CPU context (`reg as u64` in `build_ctx_gp_gep`). -/
def FullSizeGeneralPurposeRegister.index : FullSizeGeneralPurposeRegister → Fin 8
  | .EAX => 0
  | .EBX => 1
  | .ECX => 2
  | .EDX => 3
  | .ESP => 4
  | .EBP => 5
  | .ESI => 6
  | .EDI => 7

/-- The `Register` enum of `src/types.rs`: eight 32-bit GPRs, eight
16-bit aliases, four high-byte and four low-byte 8-bit aliases. -/
inductive Register where
  | EAX | EBX | ECX | EDX | ESP | EBP | ESI | EDI
  | AX | BX | CX | DX | SP | BP | SI | DI
  | AH | BH | CH | DH
  | AL | BL | CL | DL
  deriving DecidableEq, Repr

/-- The `IntType` enum of `src/types.rs`. -/
inductive IntType where
  | I8 | I16 | I32 | I64
  deriving DecidableEq, Repr

/-- `Register::size` from `src/types.rs`. -/
def Register.size : Register → IntType
  | .EAX | .EBX | .ECX | .EDX | .ESP | .EBP | .ESI | .EDI => .I32
  | .AX | .BX | .CX | .DX | .SP | .BP | .SI | .DI => .I16
  | .AH | .BH | .CH | .DH | .AL | .BL | .CL | .DL => .I8

/-- `IntType::bit_width` from `src/types.rs`. -/
def IntType.bit_width : IntType → Nat
  | .I8 => 8
  | .I16 => 16
  | .I32 => 32
  | .I64 => 64

/-- `TryFrom<Register> for FullSizeGeneralPurposeRegister` from
`src/types.rs`: succeeds exactly on the eight full-size registers. -/
def register_try_from : Register → Option FullSizeGeneralPurposeRegister
  | .EAX => some .EAX
  | .EBX => some .EBX
  | .ECX => some .ECX
  | .EDX => some .EDX
  | .ESP => some .ESP
  | .EBP => some .EBP
  | .ESI => some .ESI
  | .EDI => some .EDI
  | _ => none

/-- The `SegmentRegister` enum of `src/types.rs`. -/
inductive SegmentRegister where
  | CS | DS | ES | FS | GS | SS
  deriving DecidableEq, Repr

/-- Modelled from the spec: the `Flag` enum is referenced by
`src/backend.rs` and `src/llvm/backend.rs` but its declaration is not
among the provided sources; the spec lists its variants, in declaration
order, as Carry (CF), Parity (PF), AuxiliaryCarry (AF), Zero (ZF),
Sign (SF), Overflow (OF). -/
inductive Flag where
  | Carry | Parity | AuxiliaryCarry | Zero | Sign | Overflow
  deriving DecidableEq, Repr

/-- The enum discriminant of a `Flag`, used as the index into the flags
byte array of the CPU context (`flag as u64` in `build_ctx_flag_gep`).
The generated context struct reserves eight flag bytes. -/
def Flag.index : Flag → Fin 8
  | .Carry => 0
  | .Parity => 1
  | .AuxiliaryCarry => 2
  | .Zero => 3
  | .Sign => 4
  | .Overflow => 5

/-- The `MemoryOperand` struct of `src/types.rs` (field order as in the
source; the displacement is stored as a signed 64-bit value). -/
structure MemoryOperand where
  base : Option Register
  displacement : Int
  scale : Nat
  index : Option Register
  size : Option IntType
  segment : Option SegmentRegister

/-- The `Operand` enum of `src/types.rs`. -/
inductive Operand where
  | Register (reg : Register)
  | Immediate8 (v : Nat)
  | Immediate16 (v : Nat)
  | Immediate32 (v : Nat)
  | Immediate64 (v : Nat)
  | FarBranch (seg : Nat) (addr : Nat)
  | Memory (m : MemoryOperand)

/-- Modelled from the spec: the `ControlFlow` enum is referenced by
`src/backend.rs` and `src/llvm/backend.rs` but declared outside the
provided sources; the spec describes it as
NextInstruction | DirectJump(target_addr) | IndirectJump |
ConditionalBranch(taken, not_taken) | Conditional(list-of-sub-flows) |
Return. -/
inductive ControlFlow where
  | NextInstruction
  | DirectJump (target : Nat)
  | IndirectJump
  | ConditionalBranch (taken notTaken : Nat)
  | Conditional (flows : List ControlFlow)
  | Return

/-! ## Semantic model of the LLVM backend's CPU-context access
(`src/llvm/backend.rs`)

The generated context struct (`Types::new`) is
`{ [8 x i32], [8 x i8] }`: eight 32-bit general-purpose register slots
followed by eight flag bytes.  `CpuState` is the state of such a
context; the register and flag accessors below give the semantics of
the IR emitted by `load_register` / `store_register` /
`load_flag` / `store_flag` on this state.  Operations that hit a
`todo!()` / `unimplemented!()` panic in the source return `none`. -/

/-- A CPU context as laid out by the generated code: eight u32
general-purpose registers and eight u8 flag bytes. -/
structure CpuState where
  gp : Fin 8 → Nat
  flags : Fin 8 → Nat

/-- Write a full-size register slot (a 32-bit store through the GEP
built by `build_ctx_gp_gep`); all other slots are untouched. -/
def CpuState.setGp (st : CpuState) (i : Fin 8) (v : Nat) : CpuState :=
  { st with gp := fun j => if j = i then v % 2 ^ 32 else st.gp j }

/-- Write a flag byte slot (an 8-bit store through the GEP built by
`build_ctx_flag_gep`); all other slots are untouched. -/
def CpuState.setFlagByte (st : CpuState) (i : Fin 8) (v : Nat) : CpuState :=
  { st with flags := fun j => if j = i then v % 2 ^ 8 else st.flags j }

/-- `load_register` of `src/llvm/backend.rs`: a full-size register is
read from its context slot; any sub-register alias hits `todo!()`
(modelled as `none`). -/
def load_register (register : Register) (st : CpuState) : Option Nat :=
  match register_try_from register with
  | some gp => some (st.gp gp.index)
  | none => none

/-- `store_register` of `src/llvm/backend.rs`: a full-size register's
slot is overwritten with the 32-bit value; any sub-register alias hits
`todo!()` (modelled as `none`). -/
def store_register (register : Register) (value : Nat) (st : CpuState) :
    Option CpuState :=
  match register_try_from register with
  | some gp => some (st.setGp gp.index value)
  | none => none

/-- `load_flag` of `src/llvm/backend.rs`: the leading match sends
Carry and Overflow to `todo!()` and Parity and AuxiliaryCarry to
`unimplemented!()` (modelled as `none`); Zero and Sign fall through to
the generic code, which loads the flag's byte and compares it against
zero with `IntPredicate::NE`. -/
def load_flag (flag : Flag) (st : CpuState) : Option Bool :=
  match flag with
  | .Carry => none
  | .Parity => none
  | .AuxiliaryCarry => none
  | .Zero => some (decide (st.flags (Flag.index .Zero) ≠ 0))
  | .Sign => some (decide (st.flags (Flag.index .Sign) ≠ 0))
  | .Overflow => none

/-- `store_flag` of `src/llvm/backend.rs`: for every flag, the 1-bit
value is zero-extended to 8 bits (`zext` to `I8`: false ↦ 0, true ↦ 1)
and stored into the flag's byte slot. -/
def store_flag (flag : Flag) (value : Bool) (st : CpuState) : CpuState :=
  st.setFlagByte flag.index (if value then 1 else 0)

/-- `int_neg` of `src/llvm/backend.rs` is LLVM integer negation
(`sub 0, v`) at bit width `w`. -/
def int_neg (w : Nat) (v : Nat) : Nat :=
  (2 ^ w - v % 2 ^ w) % 2 ^ w

/-- `bool_neg` of `src/llvm/backend.rs` is implemented as
`self.int_neg(val)` on the 1-bit value; the result decoded back to a
boolean (an i1 is true iff it is the bit 1). -/
def bool_neg (b : Bool) : Bool :=
  decide (int_neg 1 (if b then 1 else 0) = 1)

/-! ## Context-struct layouts -/

/-- Minimal descriptions of the LLVM/C types appearing in the two
context layouts. -/
inductive CtxFieldType where
  | int (bits : Nat)
  | array (elem : CtxFieldType) (size : Nat)
  deriving DecidableEq, Repr

/-- The body of the generated-code context struct as set by
`Types::new` in `src/llvm/backend.rs`: `[8 x i32]` (general-purpose
registers) followed by `[8 x i8]` (flag bytes). -/
def context_struct_body : List CtxFieldType :=
  [.array (.int 32) 8, .array (.int 8) 8]

/-- The field list of the host-side `#[repr(C)] CpuContext` record of
`src/types.rs`: it holds only `gp_regs: [u32; 8]` and no flags array. -/
def host_cpu_context_fields : List CtxFieldType :=
  [.array (.int 32) 8]

/-! ## IR-expression model of the `Builder` default methods
(`src/backend.rs`)

`load_operand`, `store_operand` and `compute_memory_operand_address`
are default methods of the `Builder` trait; they are expressed entirely
through the builder's primitives.  Here they are embedded over the LLVM
builder, whose primitives construct SSA values: an `Expr` is the value
a primitive hands back.  A Rust panic (failed `assert!`, `unwrap` of
`None`, the `todo!()` inside `load_register` for sub-registers, or the
catch-all `panic!` arms of `load_operand` / `store_operand`) is an
`Except.error` carrying the panic diagnostic. -/

/-- An SSA value produced by the builder primitives. -/
inductive Expr where
  | const (ty : IntType) (value : Nat)
  | loadReg (r : FullSizeGeneralPurposeRegister)
  | add (a b : Expr)
  | mul (a b : Expr)
  | loadMem (ty : IntType) (addr : Expr)

/-- The width tag of an SSA value (the `IntValue::size` impl reads the
LLVM type; `add`/`mul` require equal widths and keep the left one). -/
def Expr.ty : Expr → IntType
  | .const t _ => t
  | .loadReg _ => .I32
  | .add a _ => a.ty
  | .mul a _ => a.ty
  | .loadMem t _ => t

/-- `make_int_value` of `src/llvm/backend.rs`: an LLVM constant of the
given width (`const_int` keeps only the low `bit_width` bits). -/
def make_int_value (ty : IntType) (value : Nat) : Expr :=
  .const ty (value % 2 ^ ty.bit_width)

/-- `make_u8` of `src/backend.rs`. -/
def make_u8 (value : Nat) : Expr := make_int_value .I8 value

/-- `make_u16` of `src/backend.rs`. -/
def make_u16 (value : Nat) : Expr := make_int_value .I16 value

/-- `make_u32` of `src/backend.rs`. -/
def make_u32 (value : Nat) : Expr := make_int_value .I32 value

/-- `make_u64` of `src/backend.rs`. -/
def make_u64 (value : Nat) : Expr := make_int_value .I64 value

/-- `load_register` of `src/llvm/backend.rs` as seen by the default
methods: full-size registers load from their context slot, producing an
I32 SSA value; sub-register aliases hit `todo!()`. -/
def load_register_ir (register : Register) : Except String Expr :=
  match register_try_from register with
  | some gp => .ok (.loadReg gp)
  | none => .error "not yet implemented"

/-- `i32::try_from` on the i64 displacement: succeeds exactly on the
signed 32-bit range. -/
def i32_try_from (v : Int) : Option Int :=
  if -(2 ^ 31) ≤ v ∧ v < 2 ^ 31 then some v else none

/-- The Rust cast `i32 as u32`: two's-complement re-interpretation. -/
def i32_as_u32 (v : Int) : Nat := (v % 2 ^ 32).toNat

/-- `compute_memory_operand_address` of `src/backend.rs`:
`assert!(op.index.is_none())`, `assert!(op.segment.is_none())`, then
start from `make_u32(i32::try_from(op.displacement).unwrap() as u32)`
and, when a base register is present, add its loaded value. -/
def compute_memory_operand_address (op : MemoryOperand) :
    Except String Expr :=
  if op.index.isSome then
    .error "assertion failed: op.index.is_none()"
  else if op.segment.isSome then
    .error "assertion failed: op.segment.is_none()"
  else
    match i32_try_from op.displacement with
    | none =>
      .error "called Result::unwrap on an Err value: TryFromIntError"
    | some d =>
      let res := make_u32 (i32_as_u32 d)
      match op.base with
      | none => .ok res
      | some base =>
        match load_register_ir base with
        | .ok base_val => .ok (.add res base_val)
        | .error e => .error e

/-- The `derive(Debug)` rendering of a `Register`. -/
def Register.rust_debug : Register → String
  | .EAX => "EAX" | .EBX => "EBX" | .ECX => "ECX" | .EDX => "EDX"
  | .ESP => "ESP" | .EBP => "EBP" | .ESI => "ESI" | .EDI => "EDI"
  | .AX => "AX" | .BX => "BX" | .CX => "CX" | .DX => "DX"
  | .SP => "SP" | .BP => "BP" | .SI => "SI" | .DI => "DI"
  | .AH => "AH" | .BH => "BH" | .CH => "CH" | .DH => "DH"
  | .AL => "AL" | .BL => "BL" | .CL => "CL" | .DL => "DL"

/-- The `derive(Debug)` rendering of an `IntType`. -/
def IntType.rust_debug : IntType → String
  | .I8 => "I8" | .I16 => "I16" | .I32 => "I32" | .I64 => "I64"

/-- The `derive(Debug)` rendering of a `SegmentRegister`. -/
def SegmentRegister.rust_debug : SegmentRegister → String
  | .CS => "CS" | .DS => "DS" | .ES => "ES"
  | .FS => "FS" | .GS => "GS" | .SS => "SS"

/-- The `derive(Debug)` rendering of an `Option`, given a renderer for
the payload. -/
def option_rust_debug {α : Type} (f : α → String) : Option α → String
  | none => "None"
  | some a => "Some(" ++ f a ++ ")"

/-- The `derive(Debug)` rendering of a `MemoryOperand`. -/
def MemoryOperand.rust_debug (m : MemoryOperand) : String :=
  "MemoryOperand \x7b base: " ++ option_rust_debug Register.rust_debug m.base
    ++ ", displacement: " ++ toString m.displacement
    ++ ", scale: " ++ toString m.scale
    ++ ", index: " ++ option_rust_debug Register.rust_debug m.index
    ++ ", size: " ++ option_rust_debug IntType.rust_debug m.size
    ++ ", segment: " ++ option_rust_debug SegmentRegister.rust_debug m.segment
    ++ " \x7d"

/-- The `derive(Debug)` rendering of an `Operand`, as interpolated by
the `{:?}` format in the panic messages. -/
def Operand.rust_debug : Operand → String
  | .Register r => "Register(" ++ r.rust_debug ++ ")"
  | .Immediate8 v => "Immediate8(" ++ toString v ++ ")"
  | .Immediate16 v => "Immediate16(" ++ toString v ++ ")"
  | .Immediate32 v => "Immediate32(" ++ toString v ++ ")"
  | .Immediate64 v => "Immediate64(" ++ toString v ++ ")"
  | .FarBranch s a => "FarBranch(" ++ toString s ++ ", " ++ toString a ++ ")"
  | .Memory m => "Memory(" ++ m.rust_debug ++ ")"

/-- `load_operand` of `src/backend.rs`: registers and immediates load
directly; memory operands compute their effective address and load at
the operand's size (`op.size.unwrap()`); the remaining variant,
`FarBranch`, falls to the catch-all
`panic!("Unsupported load operand: {:?}", op)`. -/
def load_operand (operand : Operand) : Except String Expr :=
  match operand with
  | .Register reg => load_register_ir reg
  | .Immediate8 v => .ok (make_u8 v)
  | .Immediate16 v => .ok (make_u16 v)
  | .Immediate32 v => .ok (make_u32 v)
  | .Immediate64 v => .ok (make_u64 v)
  | .Memory op =>
    match compute_memory_operand_address op with
    | .error e => .error e
    | .ok addr =>
      match op.size with
      | some sz => .ok (.loadMem sz addr)
      | none => .error "called Option::unwrap on a None value"
  | .FarBranch s a =>
    .error ("Unsupported load operand: "
      ++ Operand.rust_debug (.FarBranch s a))

/-- Whether a fallible translation step succeeded (did not panic). -/
def except_is_ok {ε α : Type} : Except ε α → Bool
  | .ok _ => true
  | .error _ => false

/-- The store emitted by `store_operand`: either a register store or a
memory store at a computed address. -/
inductive StoreAction where
  | toRegister (gp : FullSizeGeneralPurposeRegister) (value : Expr)
  | toMemory (addr : Expr) (value : Expr)

/-- `store_register` of `src/llvm/backend.rs` as seen by the default
methods: full-size registers store to their context slot; sub-register
aliases hit `todo!()`. -/
def store_register_ir (register : Register) (value : Expr) :
    Except String StoreAction :=
  match register_try_from register with
  | some gp => .ok (.toRegister gp value)
  | none => .error "not yet implemented"

/-- `store_operand` of `src/backend.rs`: register stores go through
`store_register`; memory stores compute the effective address, check
`assert_eq!(op.size.unwrap(), value.size())` and store; every other
variant (immediates and `FarBranch`) falls to the catch-all
`panic!("Unsupported store operand: {:?}", op)`. -/
def store_operand (operand : Operand) (value : Expr) :
    Except String StoreAction :=
  match operand with
  | .Register reg => store_register_ir reg value
  | .Memory op =>
    match compute_memory_operand_address op with
    | .error e => .error e
    | .ok addr =>
      match op.size with
      | none => .error "called Option::unwrap on a None value"
      | some sz =>
        if sz = value.ty then .ok (.toMemory addr value)
        else .error "assertion failed: op.size.unwrap() == value.size()"
  | op => .error ("Unsupported store operand: " ++ op.rust_debug)

/-- Evaluation of register/constant address expressions under a
register assignment: each I32 operation wraps modulo `2 ^ 32`.  Memory
loads are not address material and evaluate to `none`. -/
def eval_addr (regs : FullSizeGeneralPurposeRegister → Nat) :
    Expr → Option Nat
  | .const _ v => some v
  | .loadReg r => some (regs r % 2 ^ 32)
  | .add a b =>
    match eval_addr regs a, eval_addr regs b with
    | some x, some y => some ((x + y) % 2 ^ 32)
    | _, _ => none
  | .mul a b =>
    match eval_addr regs a, eval_addr regs b with
    | some x, some y => some ((x * y) % 2 ^ 32)
    | _, _ => none
  | .loadMem _ _ => none

/-- The address expression `compute_memory_operand_address` produces
when the asserts pass: the narrowed displacement constant, plus the
base register's value when a base is present. -/
def address_expr (base : Option FullSizeGeneralPurposeRegister)
    (disp : Int) : Expr :=
  match base with
  | none => make_u32 (i32_as_u32 disp)
  | some b => .add (make_u32 (i32_as_u32 disp)) (.loadReg b)

/-- The full-size registers as members of the `Register` enum. -/
def FullSizeGeneralPurposeRegister.widen :
    FullSizeGeneralPurposeRegister → Register
  | .EAX => .EAX
  | .EBX => .EBX
  | .ECX => .ECX
  | .EDX => .EDX
  | .ESP => .ESP
  | .EBP => .EBP
  | .ESI => .ESI
  | .EDI => .EDI

/-! ## Basic-block emission model for `ifelse` (`src/llvm/backend.rs`)

`ifelse` appends three fresh basic blocks to the current function,
emits a conditional branch, builds each arm in its own block and
terminates it according to the `ControlFlow` the arm returned.  The
state below records the blocks created so far (numbered in creation
order), the emitted instructions tagged with the block they were
appended to, and the builder's current position. -/

/-- An emitted terminator or body instruction.  `tailCall t` is the
fastcc call to the block function of `t` with the tail-call flag set
(`call_basic_block(target, true)`); `op` stands for an arbitrary
non-branching instruction an arm body emits. -/
inductive BInstr where
  | condBr (cond : Nat) (thenBlock elseBlock : Nat)
  | br (dest : Nat)
  | tailCall (target : Nat)
  | ret
  | op (code : Nat)
  deriving DecidableEq, Repr

/-- Builder state: number of basic blocks appended to the function so
far (their ids are `0 .. nblocks - 1`), the instructions emitted in
order, each tagged with its block, and the block the builder is
positioned at. -/
structure BState where
  nblocks : Nat
  instrs : List (Nat × BInstr)
  cur : Nat
  deriving DecidableEq, Repr

/-- `context.append_basic_block(function, "")`: returns the new block's
id. -/
def append_basic_block (st : BState) : Nat × BState :=
  (st.nblocks, { st with nblocks := st.nblocks + 1 })

/-- `builder.position_at_end(bb)`. -/
def position_at_end (st : BState) (bb : Nat) : BState :=
  { st with cur := bb }

/-- Emit one instruction at the builder's current position. -/
def emit (st : BState) (i : BInstr) : BState :=
  { st with instrs := st.instrs ++ [(st.cur, i)] }

/-- An `ifelse` arm closure, abstracted as the body instructions it
emits at the current position plus the `ControlFlow` it returns. -/
structure Arm where
  body : List Nat
  flow : ControlFlow

/-- Invoke an arm closure once: its body is emitted at the current
position and its `ControlFlow` is handed back. -/
def run_arm (st : BState) (a : Arm) : BState × ControlFlow :=
  (a.body.foldl (fun s c => emit s (.op c)) st, a.flow)

/-- The `res.push(flow)` / `res.append(&mut cc)` tail of the
`handle_flow` closure in `ifelse`: a `Conditional` is spliced, any
other flow is pushed.  (The splice arm is unreachable: the `match`
before it already aborts on `Conditional`.) -/
def push_flow (res : List ControlFlow) (flow : ControlFlow) :
    List ControlFlow :=
  match flow with
  | .Conditional cc => res ++ cc
  | _ => res ++ [flow]

/-- The `handle_flow` closure of `ifelse` in `src/llvm/backend.rs`:
`NextInstruction` branches to the merge block; `DirectJump(target)`
emits a tail call to the target's block function and a return; every
other flow hits `todo!()` (modelled as `none`).  The surviving flow is
recorded in `res`. -/
def handle_flow (cont_bb : Nat) (st : BState) (flow : ControlFlow)
    (res : List ControlFlow) : Option (BState × List ControlFlow) :=
  match flow with
  | .NextInstruction =>
    some (emit st (.br cont_bb), push_flow res .NextInstruction)
  | .DirectJump target =>
    some (emit (emit st (.tailCall target)) .ret,
      push_flow res (.DirectJump target))
  | _ => none

/-- `ifelse` of `src/llvm/backend.rs`: append `true_bb`, `false_bb`
and `cont_bb`, branch on the condition, build each arm exactly once in
its own block, terminate it via `handle_flow`, and finish positioned
at `cont_bb` returning `ControlFlow::Conditional(res)`. -/
def ifelse (st : BState) (cond : Nat) (iftrue iffalse : Arm) :
    Option (BState × ControlFlow) :=
  let (true_bb, st) := append_basic_block st
  let (false_bb, st) := append_basic_block st
  let (cont_bb, st) := append_basic_block st
  let st := emit st (.condBr cond true_bb false_bb)
  let st := position_at_end st true_bb
  let (st, left_flow) := run_arm st iftrue
  match handle_flow cont_bb st left_flow [] with
  | none => none
  | some (st, res) =>
    let st := position_at_end st false_bb
    let (st, right_flow) := run_arm st iffalse
    match handle_flow cont_bb st right_flow res with
    | none => none
    | some (st, res) =>
      some (position_at_end st cont_bb, .Conditional res)

/-- The flows `handle_flow` survives (all others abort in `todo!()`). -/
def ControlFlow.mergeable : ControlFlow → Bool
  | .NextInstruction => true
  | .DirectJump _ => true
  | .IndirectJump => false
  | .ConditionalBranch _ _ => false
  | .Conditional _ => false
  | .Return => false

/-- Body instructions of an arm, tagged with the arm's block. -/
def arm_ops (bb : Nat) (body : List Nat) : List (Nat × BInstr) :=
  body.map (fun c => (bb, .op c))

/-- The terminator instructions `handle_flow` emits in block `bb` for a
mergeable flow. -/
def term_instrs (bb cont : Nat) : ControlFlow → List (Nat × BInstr)
  | .NextInstruction => [(bb, .br cont)]
  | .DirectJump t => [(bb, .tailCall t), (bb, .ret)]
  | _ => []

/-- Everything one `ifelse` invocation appends to the instruction
stream when both arms are mergeable. -/
def ifelse_suffix (st : BState) (cond : Nat) (l r : Arm) :
    List (Nat × BInstr) :=
  [(st.cur, .condBr cond st.nblocks (st.nblocks + 1))]
    ++ arm_ops st.nblocks l.body
    ++ term_instrs st.nblocks (st.nblocks + 2) l.flow
    ++ arm_ops (st.nblocks + 1) r.body
    ++ term_instrs (st.nblocks + 1) (st.nblocks + 2) r.flow

/-- The number of branch edges a single instruction contributes into
block `bb` (`condBr` counts each matching target). -/
def edge_to (bb : Nat) : Nat × BInstr → Nat
  | (_, .condBr _ t f) =>
    (if t = bb then 1 else 0) + (if f = bb then 1 else 0)
  | (_, .br d) => if d = bb then 1 else 0
  | (_, .tailCall _) => 0
  | (_, .ret) => 0
  | (_, .op _) => 0

/-- The number of branch edges into block `bb` in an instruction
list. -/
def in_edge_count (l : List (Nat × BInstr)) (bb : Nat) : Nat :=
  (l.map (edge_to bb)).sum

/-- The number of branch edges from block `src` into block `dst` in an
instruction list. -/
def out_edge_count (l : List (Nat × BInstr)) (src dst : Nat) : Nat :=
  ((l.filter (fun p => decide (p.1 = src))).map (edge_to dst)).sum

/-- The number of merge edges one arm contributes: one for a
`NextInstruction` arm, none otherwise. -/
def merge_edges : ControlFlow → Nat
  | .NextInstruction => 1
  | _ => 0

/-! ## Module model for block-function emission
(`src/llvm/backend.rs`)

A translation-unit module maps function names to function handles;
`add_function` appends a fresh handle. -/

/-- An LLVM module, reduced to its named functions: names paired with
distinct handles, plus the next fresh handle. -/
structure LModule where
  funs : List (String × Nat)
  next : Nat
  deriving DecidableEq, Repr

/-- `module.get_function(name)`. -/
def get_function (m : LModule) (name : String) : Option Nat :=
  match m.funs.find? (fun p => p.1 == name) with
  | some p => some p.2
  | none => none

/-- `module.add_function(name, types.bb_fn, None)` (the fastcc calling
convention is set on the new function; irrelevant to the lookup). -/
def add_function (m : LModule) (name : String) : Nat × LModule :=
  (m.next, { funs := m.funs ++ [(name, m.next)], next := m.next + 1 })

/-- The little-endian base-16 digits of `n`, padded to `k` digits. -/
def nat_to_hex_digits_le : Nat → Nat → List Nat
  | 0, _ => []
  | k + 1, n => n % 16 :: nat_to_hex_digits_le k (n / 16)

/-- A lowercase hexadecimal digit character. -/
def hex_digit_char (d : Nat) : Char :=
  if d < 10 then Char.ofNat (48 + d) else Char.ofNat (87 + d)

/-- The digit characters of `format!("{:08x}", n)`: eight lowercase hex
digits, most significant first (a `u32` never needs more than eight). -/
def hex8_chars (n : Nat) : List Char :=
  ((nat_to_hex_digits_le 8 n).reverse).map hex_digit_char

/-- `get_name_for` of `src/llvm/backend.rs`:
`format!("sub_{:08x}", addr)`. -/
def get_name_for (addr : Nat) : String :=
  String.mk (['s', 'u', 'b', '_'] ++ hex8_chars addr)

/-- `get_basic_block_fun_internal` of `src/llvm/backend.rs`: look the
name up in the module and return the existing function, else add it. -/
def get_basic_block_fun_internal (m : LModule) (addr : Nat) :
    Nat × LModule :=
  let name := get_name_for addr
  match get_function m name with
  | some fn => (fn, m)
  | none => add_function m name

/-- Recognizer for lowercase hexadecimal digit characters. -/
def is_lower_hex (c : Char) : Bool :=
  (48 ≤ c.toNat && c.toNat ≤ 57) || (97 ≤ c.toNat && c.toNat ≤ 102)

/-- The numeric value of a big-endian string of hex digit characters. -/
def hex_chars_val (l : List Char) : Nat :=
  l.foldl (fun a c =>
    a * 16 + (if c.toNat ≤ 57 then c.toNat - 48 else c.toNat - 87)) 0

/-! # Theorems -/

/-! ## C1 — sub-register writes (`store_register`) -/

/-- C1 counterexample: the claim says writing the 16-bit alias AX
replaces bits [15:0] of EAX and preserves [31:16]; in the code
`store_register` on any register that is not a full-size GPR falls into
the `else` branch and aborts with `todo!()`, so no store is performed
at all. -/
theorem c1_counterexample :
    store_register Register.AX 42
        ⟨fun _ => 1094861636, fun _ => 0⟩ = none :=
  rfl

/-- C1 (amended): `store_register` handles only the eight full-size
32-bit registers, overwriting exactly the named register's 32-bit slot
and preserving every other register slot and every flag byte; for every
sub-register alias (16-bit, 8-bit low, 8-bit high) it aborts with
`todo!()` and performs no write. -/
theorem c1_store_register_amended :
    (∀ (r : Register) (gp : FullSizeGeneralPurposeRegister) (v : Nat)
        (st : CpuState), register_try_from r = some gp →
        store_register r v st = some (st.setGp gp.index v) ∧
        (st.setGp gp.index v).gp gp.index = v % 2 ^ 32 ∧
        (∀ j, j ≠ gp.index → (st.setGp gp.index v).gp j = st.gp j) ∧
        (st.setGp gp.index v).flags = st.flags) ∧
    (∀ (r : Register) (v : Nat) (st : CpuState),
        register_try_from r = none → store_register r v st = none) := by
  constructor
  · intro r gp v st h
    refine ⟨by simp [store_register, h], by simp [CpuState.setGp], ?_, rfl⟩
    intro j hj
    simp [CpuState.setGp, hj]
  · intro r v st h
    simp [store_register, h]

/-- C1 witness: the amended theorem evaluated at EAX (a full-size
store) and at SI (an alias, aborting). -/
theorem c1_witness :
    store_register Register.EAX 42 ⟨fun _ => 7, fun _ => 0⟩
        = some (CpuState.setGp ⟨fun _ => 7, fun _ => 0⟩
            (FullSizeGeneralPurposeRegister.index .EAX) 42) ∧
    store_register Register.SI 42 ⟨fun _ => 7, fun _ => 0⟩ = none :=
  ⟨(c1_store_register_amended.1 .EAX .EAX 42 ⟨fun _ => 7, fun _ => 0⟩ rfl).1,
    c1_store_register_amended.2 .SI 42 ⟨fun _ => 7, fun _ => 0⟩ rfl⟩

/-! ## C2 — flag access (`load_flag` / `store_flag`) -/

/-- C2 counterexample: the claim says `load_flag(Carry)` returns the
comparison of the Carry byte against zero; in the code the leading
match in `load_flag` sends `Flag::Carry` to `todo!()`, so the load
aborts (here: on a context whose flag bytes are all 1, where the claim
would return `true`). -/
theorem c2_counterexample :
    load_flag Flag.Carry ⟨fun _ => 0, fun _ => 1⟩ = none :=
  rfl

/-- C2 (amended): `load_flag` returns the flag byte compared against
zero only for Zero and Sign; for Carry and Overflow it aborts with
`todo!()` and for Parity and AuxiliaryCarry with `unimplemented!()`.
`store_flag` works for every flag: it zero-extends the 1-bit value to
8 bits (false ↦ 0, true ↦ 1), stores it into that flag's byte slot and
leaves every other flag byte and all registers unchanged. -/
theorem c2_flag_access_amended :
    (∀ st : CpuState,
        load_flag .Zero st
          = some (decide (st.flags (Flag.index .Zero) ≠ 0)) ∧
        load_flag .Sign st
          = some (decide (st.flags (Flag.index .Sign) ≠ 0)) ∧
        load_flag .Carry st = none ∧
        load_flag .Parity st = none ∧
        load_flag .AuxiliaryCarry st = none ∧
        load_flag .Overflow st = none) ∧
    (∀ (f : Flag) (b : Bool) (st : CpuState),
        (store_flag f b st).flags (Flag.index f)
          = (if b then 1 else 0) ∧
        (∀ j, j ≠ Flag.index f → (store_flag f b st).flags j = st.flags j) ∧
        (store_flag f b st).gp = st.gp) := by
  constructor
  · intro st
    exact ⟨rfl, rfl, rfl, rfl, rfl, rfl⟩
  · intro f b st
    refine ⟨?_, ?_, rfl⟩
    · cases b <;> simp [store_flag, CpuState.setFlagByte]
    · intro j hj
      simp [store_flag, CpuState.setFlagByte, hj]

/-- C2 witness: the amended theorem evaluated on a concrete context:
a Zero load sees the nonzero byte, an Overflow load aborts, a Parity
store writes byte 1 into the Parity slot and leaves the Zero slot
untouched. -/
theorem c2_witness :
    load_flag .Zero ⟨fun _ => 0, fun _ => 2⟩ = some true ∧
    load_flag .Overflow ⟨fun _ => 0, fun _ => 2⟩ = none ∧
    (store_flag .Parity true ⟨fun _ => 0, fun _ => 9⟩).flags
        (Flag.index .Parity) = 1 ∧
    (store_flag .Parity true ⟨fun _ => 0, fun _ => 9⟩).flags
        (Flag.index .Zero) = 9 :=
  ⟨((c2_flag_access_amended.1 ⟨fun _ => 0, fun _ => 2⟩).1).trans rfl,
    (c2_flag_access_amended.1 ⟨fun _ => 0, fun _ => 2⟩).2.2.2.2.2,
    (c2_flag_access_amended.2 .Parity true ⟨fun _ => 0, fun _ => 9⟩).1,
    ((c2_flag_access_amended.2 .Parity true ⟨fun _ => 0, fun _ => 9⟩).2.1
        (Flag.index .Zero) (by decide)).trans rfl⟩

/-! ## C3 — `bool_neg` -/

/-- C3: the claim says `bool_neg` is logical not; the code implements
it as `self.int_neg(val)`, i.e. LLVM arithmetic negation `sub 0, v` on
the 1-bit value, and on one bit `(2 - v) mod 2 = v`: `bool_neg` is the
identity, so `bool_neg(true) = true`, contradicting the claim. -/
theorem c3_bool_neg_is_identity :
    bool_neg true = true ∧ bool_neg false = false := by
  decide

/-! ## C8 — CPU-context layout -/

/-- C8: the generated-code context struct built in `Types::new` is
`{ [8 x i32], [8 x i8] }` with registers indexed EAX=0..EDI=7 and
flags indexed by the Flag declaration order, but the host-side
`#[repr(C)] CpuContext` of `src/types.rs` holds only the `gp_regs`
array and no flags array, so the two layouts are not shared: generated
code stores flag bytes past the end of the host record. -/
theorem c8_context_layout_mismatch :
    context_struct_body
      = [.array (.int 32) 8, .array (.int 8) 8] ∧
    host_cpu_context_fields = [.array (.int 32) 8] ∧
    host_cpu_context_fields ≠ context_struct_body ∧
    FullSizeGeneralPurposeRegister.index .EAX = 0 ∧
    FullSizeGeneralPurposeRegister.index .EBX = 1 ∧
    FullSizeGeneralPurposeRegister.index .ECX = 2 ∧
    FullSizeGeneralPurposeRegister.index .EDX = 3 ∧
    FullSizeGeneralPurposeRegister.index .ESP = 4 ∧
    FullSizeGeneralPurposeRegister.index .EBP = 5 ∧
    FullSizeGeneralPurposeRegister.index .ESI = 6 ∧
    FullSizeGeneralPurposeRegister.index .EDI = 7 ∧
    Flag.index .Carry = 0 ∧
    Flag.index .Parity = 1 ∧
    Flag.index .AuxiliaryCarry = 2 ∧
    Flag.index .Zero = 3 ∧
    Flag.index .Sign = 4 ∧
    Flag.index .Overflow = 5 := by
  refine ⟨rfl, rfl, by decide, ?_⟩
  repeat exact ⟨rfl, by repeat first | exact rfl | constructor⟩

/-! ## C9 — unsupported operands (`FarBranch`) -/

/-- C9: `load_operand` and `store_operand` on a `FarBranch` operand
reach their catch-all arms and abort translation with a panic whose
diagnostic interpolates the operand's `{:?}` rendering — naming
`FarBranch` and its payload — and neither produces a value nor emits a
store. -/
theorem c9_far_branch_aborts :
    ∀ (s a : Nat) (v : Expr),
      load_operand (.FarBranch s a)
        = .error ("Unsupported load operand: "
            ++ Operand.rust_debug (.FarBranch s a)) ∧
      store_operand (.FarBranch s a) v
        = .error ("Unsupported store operand: "
            ++ Operand.rust_debug (.FarBranch s a)) ∧
      Operand.rust_debug (.FarBranch s a)
        = "FarBranch(" ++ toString s ++ ", " ++ toString a ++ ")" := by
  intro s a v
  exact ⟨rfl, rfl, rfl⟩

/-! ## C4 and C10 — effective-address computation -/

/-- Widening a full-size register back into the `Register` enum is
undone by `TryFrom`. -/
theorem register_try_from_widen (gp : FullSizeGeneralPurposeRegister) :
    register_try_from gp.widen = some gp := by
  cases gp <;> rfl

/-- C4 counterexample: the claim says a memory operand with an index
register contributes `index * scale` to the effective address; in the
code `compute_memory_operand_address` begins with
`assert!(op.index.is_none())`, so the operand `[4*EBX]` aborts
translation instead of producing any address. -/
theorem c4_counterexample :
    compute_memory_operand_address
        ⟨none, 0, 4, some Register.EBX, some IntType.I32, none⟩
      = .error "assertion failed: op.index.is_none()" :=
  rfl

/-- C4 (amended): for a memory operand with no index and no segment
and a displacement in the signed 32-bit range, the computed effective
address is the I32 value `(base? + displacement) mod 2^32`: the
computation starts from the displacement narrowed to I32 and adds the
base register's value when a base is present; operands with an index
(or segment) present are rejected by assertion. -/
theorem c4_effective_address_amended
    (base : Option FullSizeGeneralPurposeRegister) (disp : Int)
    (scale : Nat) (sz : Option IntType)
    (h1 : -(2 ^ 31) ≤ disp) (h2 : disp < 2 ^ 31)
    (regs : FullSizeGeneralPurposeRegister → Nat) :
    compute_memory_operand_address
        ⟨base.map FullSizeGeneralPurposeRegister.widen, disp, scale,
          none, sz, none⟩
      = .ok (address_expr base disp) ∧
    eval_addr regs (address_expr base disp)
      = some (((match base with
          | none => (0 : Int)
          | some b => (regs b : Int)) + disp) % 2 ^ 32).toNat := by
  have h32 : (2 : Int) ^ 32 = 4294967296 := by norm_num
  have h32n : (2 : Nat) ^ 32 = 4294967296 := by norm_num
  norm_num at h1 h2
  cases base with
  | none =>
    refine ⟨?_, ?_⟩
    · simp [compute_memory_operand_address, i32_try_from, h1, h2,
        address_expr]
    · simp only [address_expr, make_u32, make_int_value, eval_addr,
        i32_as_u32, IntType.bit_width, Option.some.injEq]
      rw [h32, h32n]
      omega
  | some b =>
    refine ⟨?_, ?_⟩
    · simp [compute_memory_operand_address, i32_try_from, h1, h2,
        address_expr, load_register_ir, register_try_from_widen]
    · simp only [address_expr, make_u32, make_int_value, eval_addr,
        i32_as_u32, IntType.bit_width, Option.some.injEq]
      rw [h32, h32n]
      omega

/-- C4 witness: the amended theorem evaluated on `[EAX + 7]` with
EAX = 5: the emitted expression is the displacement constant plus the
loaded base, and it evaluates to 12. -/
theorem c4_witness :
    compute_memory_operand_address
        ⟨some Register.EAX, 7, 1, none, some IntType.I32, none⟩
      = .ok (address_expr (some .EAX) 7) ∧
    eval_addr (fun _ => 5) (address_expr (some .EAX) 7) = some 12 := by
  have h := c4_effective_address_amended (some .EAX) 7 1
    (some IntType.I32) (by norm_num) (by norm_num) (fun _ => 5)
  exact ⟨h.1, h.2.trans (by decide)⟩

/-- C10: a displacement outside the signed 32-bit range makes
`compute_memory_operand_address` abort (the `i32::try_from(..).unwrap()`
panics) rather than wrap modulo `2^32`; a displacement inside the range
is narrowed losslessly (the narrowed i32 equals the displacement) and,
provided the operand passes the index/segment assertions and its base
is loadable, the computation proceeds to an address. -/
theorem c10_displacement_narrowing :
    (∀ op : MemoryOperand,
        op.displacement < -(2 ^ 31) ∨ 2 ^ 31 ≤ op.displacement →
        except_is_ok (compute_memory_operand_address op) = false) ∧
    (∀ op : MemoryOperand, op.index = none → op.segment = none →
        (op.base.all fun b => (register_try_from b).isSome) = true →
        -(2 ^ 31) ≤ op.displacement → op.displacement < 2 ^ 31 →
        i32_try_from op.displacement = some op.displacement ∧
        except_is_ok (compute_memory_operand_address op) = true) := by
  constructor
  · rintro ⟨b, d, sc, idx, szz, seg⟩ h
    rcases idx with _ | idx
    · rcases seg with _ | seg
      · have hno : i32_try_from d = none := by
          simp only [i32_try_from, ite_eq_right_iff]
          intro hc
          rcases h with h | h
          · exact absurd hc.1 (by simpa using not_le.mpr h)
          · exact absurd hc.2 (by simpa using not_lt.mpr h)
        simp [compute_memory_operand_address, hno, except_is_ok]
      · simp [compute_memory_operand_address, except_is_ok]
    · simp [compute_memory_operand_address, except_is_ok]
  · rintro ⟨b, d, sc, idx, szz, seg⟩ hidx hseg hb h1 h2
    simp only at hidx hseg hb h1 h2
    subst hidx
    subst hseg
    norm_num at h1 h2
    have htf : i32_try_from d = some d := by
      simp [i32_try_from, h1, h2]
    refine ⟨htf, ?_⟩
    rcases b with _ | b
    · simp [compute_memory_operand_address, htf, except_is_ok]
    · simp only [Option.all_some] at hb
      rcases hr : register_try_from b with _ | gp
      · rw [hr] at hb
        simp at hb
      · simp [compute_memory_operand_address, htf, load_register_ir,
          hr, except_is_ok]

/-- C10 witness: the displacement `2^31` (just out of range) aborts;
the displacement `-5` on `[EBP - 5]` is narrowed to itself and the
computation succeeds. -/
theorem c10_witness :
    except_is_ok (compute_memory_operand_address
        ⟨none, 2 ^ 31, 1, none, none, none⟩) = false ∧
    i32_try_from (-5) = some (-5) ∧
    except_is_ok (compute_memory_operand_address
        ⟨some Register.EBP, -5, 1, none, some IntType.I8, none⟩)
      = true := by
  refine ⟨c10_displacement_narrowing.1 _ (Or.inr (by norm_num)), ?_, ?_⟩
  · exact (c10_displacement_narrowing.2
      ⟨some Register.EBP, -5, 1, none, some IntType.I8, none⟩
      rfl rfl rfl (by norm_num) (by norm_num)).1
  · exact (c10_displacement_narrowing.2
      ⟨some Register.EBP, -5, 1, none, some IntType.I8, none⟩
      rfl rfl rfl (by norm_num) (by norm_num)).2

/-! ## C5 and C6 — the `ifelse` control-flow joiner -/

/-- Emitting an arm body folds down to appending its instructions,
tagged with the current block, to the stream. -/
theorem foldl_emit_ops (body : List Nat) (st : BState) :
    body.foldl (fun s c => emit s (.op c)) st
      = { st with instrs := st.instrs ++ arm_ops st.cur body } := by
  induction body generalizing st with
  | nil => simp [arm_ops]
  | cons c cs ih =>
    rw [List.foldl_cons, ih]
    simp [emit, arm_ops]

/-- Full description of one `ifelse` invocation with two mergeable
arms (shared by the C5 and C6 theorems). -/
theorem ifelse_run (st : BState) (cond : Nat) (l r : Arm)
    (hl : l.flow.mergeable = true) (hr : r.flow.mergeable = true) :
    ifelse st cond l r = some
      ({ nblocks := st.nblocks + 3,
         instrs := st.instrs ++ ifelse_suffix st cond l r,
         cur := st.nblocks + 2 }, .Conditional [l.flow, r.flow]) := by
  obtain ⟨lb, lf⟩ := l
  obtain ⟨rb, rf⟩ := r
  simp only at hl hr
  cases lf <;> cases rf <;> simp [ControlFlow.mergeable] at hl hr
  all_goals (
    simp only [ifelse, append_basic_block, position_at_end, run_arm,
      handle_flow, push_flow];
    simp only [foldl_emit_ops];
    simp [emit, ifelse_suffix, arm_ops, term_instrs, List.append_assoc])

/-- C5 counterexample: the claim says an arm that returns
`ControlFlow::Return` is terminated with a return instruction; in the
code the `match` inside `handle_flow` covers only `NextInstruction`
and `DirectJump` and sends everything else — including `Return` — to
`todo!()`, so this `ifelse` aborts instead of emitting a return. -/
theorem c5_counterexample :
    ifelse ⟨1, [], 0⟩ 5 ⟨[], .Return⟩ ⟨[], .NextInstruction⟩ = none :=
  rfl

/-- C5 (amended): `ifelse` appends three fresh basic blocks (then,
else, merge), branches on the condition, invokes each arm exactly once
in its own fresh block, and terminates each arm according to its
`ControlFlow`: `NextInstruction` branches to the shared merge block and
`DirectJump(t)` emits a tail call to the block function of `t` followed
by a return, contributing no merge edge; any other flow — including
`Return` — aborts with `todo!()`.  With both arms mergeable it returns
`Conditional([left, right])` and leaves the builder at the merge block
(the `Conditional`-flattening branch of the source is unreachable,
because the preceding `match` aborts on `Conditional` first). -/
theorem c5_ifelse_amended (st : BState) (cond : Nat) (l r : Arm)
    (hl : l.flow.mergeable = true) (hr : r.flow.mergeable = true) :
    ifelse st cond l r = some
      ({ nblocks := st.nblocks + 3,
         instrs := st.instrs
           ++ [(st.cur, .condBr cond st.nblocks (st.nblocks + 1))]
           ++ arm_ops st.nblocks l.body
           ++ term_instrs st.nblocks (st.nblocks + 2) l.flow
           ++ arm_ops (st.nblocks + 1) r.body
           ++ term_instrs (st.nblocks + 1) (st.nblocks + 2) r.flow,
         cur := st.nblocks + 2 }, .Conditional [l.flow, r.flow]) := by
  have h := ifelse_run st cond l r hl hr
  simpa [ifelse_suffix, List.append_assoc] using h

/-- C5 witness: a `NextInstruction` arm with body `[7]` against a
`DirectJump 9` arm, starting from a fresh entry block. -/
theorem c5_witness :
    ifelse ⟨1, [], 0⟩ 5 ⟨[7], .NextInstruction⟩ ⟨[], .DirectJump 9⟩
      = some (⟨4, [(0, .condBr 5 1 2), (1, .op 7), (1, .br 3),
            (2, .tailCall 9), (2, .ret)], 3⟩,
          .Conditional [.NextInstruction, .DirectJump 9]) := by
  have h := c5_ifelse_amended ⟨1, [], 0⟩ 5 ⟨[7], .NextInstruction⟩
    ⟨[], .DirectJump 9⟩ rfl rfl
  simpa [arm_ops, term_instrs] using h

/-- Arm-body instructions carry no branch edges. -/
theorem edge_to_arm_ops (dst bb : Nat) (body : List Nat) :
    ∀ x ∈ arm_ops bb body, edge_to dst x = 0 := by
  intro x hx
  simp only [arm_ops, List.mem_map] at hx
  obtain ⟨c, _, rfl⟩ := hx
  rfl

/-- Incoming-edge counts distribute over append. -/
theorem in_edge_count_append (l1 l2 : List (Nat × BInstr)) (bb : Nat) :
    in_edge_count (l1 ++ l2) bb
      = in_edge_count l1 bb + in_edge_count l2 bb := by
  simp [in_edge_count]

/-- Source-filtered edge counts distribute over append. -/
theorem out_edge_count_append (l1 l2 : List (Nat × BInstr))
    (src dst : Nat) :
    out_edge_count (l1 ++ l2) src dst
      = out_edge_count l1 src dst + out_edge_count l2 src dst := by
  simp [out_edge_count, List.filter_append]

/-- Arm bodies contribute no incoming edges anywhere. -/
theorem in_edge_count_arm_ops (bb : Nat) (body : List Nat) (t : Nat) :
    in_edge_count (arm_ops bb body) t = 0 := by
  apply List.sum_eq_zero
  intro y hy
  simp only [List.mem_map] at hy
  obtain ⟨x, hx, rfl⟩ := hy
  exact edge_to_arm_ops t bb body x hx

/-- Arm bodies contribute no source-filtered edges anywhere. -/
theorem out_edge_count_arm_ops (bb : Nat) (body : List Nat)
    (src dst : Nat) :
    out_edge_count (arm_ops bb body) src dst = 0 := by
  apply List.sum_eq_zero
  intro y hy
  simp only [List.mem_map] at hy
  obtain ⟨x, hx, rfl⟩ := hy
  exact edge_to_arm_ops dst bb body x (List.mem_of_mem_filter hx)

/-- C6 counterexample: the claim says that whenever at least one arm
ends in `DirectJump` no merge block with zero incoming edges is
created; with both arms ending in `DirectJump`, `ifelse` still appends
the merge block (id 3, `nblocks` becomes 4) and positions the builder
there, yet no instruction branches to it. -/
theorem c6_counterexample :
    ifelse ⟨1, [], 0⟩ 5 ⟨[], .DirectJump 7⟩ ⟨[], .DirectJump 8⟩
      = some (⟨4, [(0, .condBr 5 1 2), (1, .tailCall 7), (1, .ret),
            (2, .tailCall 8), (2, .ret)], 3⟩,
          .Conditional [.DirectJump 7, .DirectJump 8]) ∧
    in_edge_count [(0, .condBr 5 1 2), (1, .tailCall 7), (1, .ret),
        (2, .tailCall 8), (2, .ret)] 3 = 0 :=
  ⟨rfl, rfl⟩

/-- C6 (amended): for mergeable arms, the instructions `ifelse`
appends carry exactly one merge edge from the then-block when the left
arm ends in `NextInstruction` and none when it ends in `DirectJump`,
likewise for the else-block and the right arm, and the merge block's
total incoming edges are exactly the sum of the two; in particular
with both arms in `NextInstruction` there is exactly one merge edge
per arm, and with both arms in `DirectJump` the merge block is created
unreachable. -/
theorem c6_merge_edges_amended (st : BState) (cond : Nat) (l r : Arm)
    (hl : l.flow.mergeable = true) (hr : r.flow.mergeable = true) :
    ifelse st cond l r = some
      ({ nblocks := st.nblocks + 3,
         instrs := st.instrs ++ ifelse_suffix st cond l r,
         cur := st.nblocks + 2 }, .Conditional [l.flow, r.flow]) ∧
    out_edge_count (ifelse_suffix st cond l r) st.nblocks
        (st.nblocks + 2) = merge_edges l.flow ∧
    out_edge_count (ifelse_suffix st cond l r) (st.nblocks + 1)
        (st.nblocks + 2) = merge_edges r.flow ∧
    in_edge_count (ifelse_suffix st cond l r) (st.nblocks + 2)
      = merge_edges l.flow + merge_edges r.flow := by
  obtain ⟨lb, lf⟩ := l
  obtain ⟨rb, rf⟩ := r
  simp only at hl hr ⊢
  refine ⟨ifelse_run ⟨st.nblocks, st.instrs, st.cur⟩ cond ⟨lb, lf⟩ ⟨rb, rf⟩ hl hr, ?_, ?_, ?_⟩
  all_goals (
    cases lf <;> cases rf <;> simp [ControlFlow.mergeable] at hl hr;
    all_goals (
      rw [ifelse_suffix];
      repeat rw [in_edge_count_append];
      repeat rw [out_edge_count_append];
      repeat rw [in_edge_count_arm_ops];
      repeat rw [out_edge_count_arm_ops];
      simp [in_edge_count, out_edge_count, term_instrs, edge_to,
        merge_edges, List.filter_cons];
      try (split_ifs <;> (try simp [edge_to]) <;> try omega)))

/-- C6 witness: both arms `NextInstruction` from a fresh entry block:
one merge edge from the then-block (1), one from the else-block (2),
two in total into the merge block (3). -/
theorem c6_witness :
    out_edge_count (ifelse_suffix ⟨1, [], 0⟩ 5 ⟨[], .NextInstruction⟩
        ⟨[4], .NextInstruction⟩) 1 3 = 1 ∧
    out_edge_count (ifelse_suffix ⟨1, [], 0⟩ 5 ⟨[], .NextInstruction⟩
        ⟨[4], .NextInstruction⟩) 2 3 = 1 ∧
    in_edge_count (ifelse_suffix ⟨1, [], 0⟩ 5 ⟨[], .NextInstruction⟩
        ⟨[4], .NextInstruction⟩) 3 = 2 := by
  have h := c6_merge_edges_amended ⟨1, [], 0⟩ 5 ⟨[], .NextInstruction⟩
    ⟨[4], .NextInstruction⟩ rfl rfl
  exact ⟨h.2.1.trans rfl, h.2.2.1.trans rfl, h.2.2.2.trans rfl⟩

/-! ## C7 — block-function emission -/

/-- `find?` skips a prefix in which nothing matches. -/
theorem find_pair_append_none (p : String × Nat → Bool)
    (l1 l2 : List (String × Nat)) (h : l1.find? p = none) :
    (l1 ++ l2).find? p = l2.find? p := by
  induction l1 with
  | nil => rfl
  | cons a t ih =>
    rw [List.cons_append]
    cases hpa : p a
    · rw [List.find?_cons_of_neg _ (by simp [hpa])] at h ⊢
      exact ih h
    · rw [List.find?_cons_of_pos _ hpa] at h
      exact Option.noConfusion h

/-- The little-endian digit list always has exactly `k` digits. -/
theorem nat_to_hex_digits_le_length (k : Nat) : ∀ n : Nat,
    (nat_to_hex_digits_le k n).length = k := by
  induction k with
  | zero => intro n; rfl
  | succ k ih => intro n; simp [nat_to_hex_digits_le, ih]

/-- Every entry of the little-endian digit list is a hex digit. -/
theorem nat_to_hex_digits_le_mem_lt (k : Nat) : ∀ (n : Nat),
    ∀ d ∈ nat_to_hex_digits_le k n, d < 16 := by
  induction k with
  | zero =>
    intro n d hd
    simp [nat_to_hex_digits_le] at hd
  | succ k ih =>
    intro n d hd
    simp only [nat_to_hex_digits_le, List.mem_cons] at hd
    rcases hd with rfl | hd
    · omega
    · exact ih (n / 16) d hd

/-- Decoding a lowercase hex digit character recovers the digit. -/
theorem hex_digit_char_val :
    ∀ d : Fin 16,
      (if (hex_digit_char d.1).toNat ≤ 57 then (hex_digit_char d.1).toNat - 48
        else (hex_digit_char d.1).toNat - 87) = d.1 := by
  decide

/-- The digit characters are lowercase hexadecimal. -/
theorem hex_digit_char_lower :
    ∀ d : Fin 16, is_lower_hex (hex_digit_char d.1) = true := by
  decide

/-- Appending one digit character multiplies the accumulated value by
16 and adds the digit. -/
theorem hex_chars_val_append_digit (xs : List Char) (c : Char) :
    hex_chars_val (xs ++ [c]) = hex_chars_val xs * 16
      + (if c.toNat ≤ 57 then c.toNat - 48 else c.toNat - 87) := by
  simp [hex_chars_val, List.foldl_append]

/-- Parsing the big-endian hex rendering of `n < 16 ^ k` gives back
`n`. -/
theorem hex_chars_val_digits (k : Nat) : ∀ n : Nat, n < 16 ^ k →
    hex_chars_val ((nat_to_hex_digits_le k n).reverse.map hex_digit_char)
      = n := by
  induction k with
  | zero =>
    intro n hn
    have hn0 : n = 0 := by omega
    subst hn0
    rfl
  | succ k ih =>
    intro n hn
    have hdiv : n / 16 < 16 ^ k := by
      rw [pow_succ] at hn
      omega
    simp only [nat_to_hex_digits_le, List.reverse_cons, List.map_append,
      List.map_cons, List.map_nil]
    rw [hex_chars_val_append_digit, ih (n / 16) hdiv]
    have hd := hex_digit_char_val ⟨n % 16, by omega⟩
    simp only at hd
    rw [hd]
    omega

/-- C7: requesting the block function for the same address twice in
one module returns the same function handle and leaves the module
unchanged (no second function is created), and for any u32 address the
emitted name is `sub_` followed by exactly eight lowercase hexadecimal
digits whose value is the address. -/
theorem c7_block_function_emission :
    (∀ (m : LModule) (addr : Nat),
        (get_basic_block_fun_internal
            (get_basic_block_fun_internal m addr).2 addr).1
          = (get_basic_block_fun_internal m addr).1 ∧
        (get_basic_block_fun_internal
            (get_basic_block_fun_internal m addr).2 addr).2
          = (get_basic_block_fun_internal m addr).2) ∧
    (∀ addr : Nat, addr < 2 ^ 32 →
        (get_name_for addr).data
          = ['s', 'u', 'b', '_'] ++ hex8_chars addr ∧
        (hex8_chars addr).length = 8 ∧
        (∀ c ∈ hex8_chars addr, is_lower_hex c = true) ∧
        hex_chars_val (hex8_chars addr) = addr) := by
  constructor
  · intro m addr
    rcases h : get_function m (get_name_for addr) with _ | fn
    · have hf : m.funs.find? (fun p => p.1 == get_name_for addr)
          = none := by
        unfold get_function at h
        rcases hfind : m.funs.find? (fun p => p.1 == get_name_for addr)
          with _ | p
        · exact hfind
        · rw [hfind] at h
          exact Option.noConfusion h
      have h2 : get_function
          ⟨m.funs ++ [(get_name_for addr, m.next)], m.next + 1⟩
          (get_name_for addr) = some m.next := by
        unfold get_function
        rw [find_pair_append_none _ _ _ hf]
        simp [List.find?]
      simp [get_basic_block_fun_internal, h, add_function, h2]
    · simp [get_basic_block_fun_internal, h]
  · intro addr haddr
    refine ⟨rfl, by simp [hex8_chars, nat_to_hex_digits_le_length], ?_, ?_⟩
    · intro c hc
      simp only [hex8_chars, List.mem_map, List.mem_reverse] at hc
      obtain ⟨d, hd, rfl⟩ := hc
      have hlt := nat_to_hex_digits_le_mem_lt 8 addr d hd
      exact hex_digit_char_lower ⟨d, hlt⟩
    · have h16 : (16 : Nat) ^ 8 = 2 ^ 32 := by norm_num
      exact hex_chars_val_digits 8 addr (by omega)

/-- C7 witness: the address `0xdeadbeef` in an empty module: the
second request returns the first handle, the hex digits decode back to
the address, and the rendered name is `sub_deadbeef`. -/
theorem c7_witness :
    (get_basic_block_fun_internal
        (get_basic_block_fun_internal ⟨[], 0⟩ 3735928559).2 3735928559).1
      = (get_basic_block_fun_internal ⟨[], 0⟩ 3735928559).1 ∧
    hex_chars_val (hex8_chars 3735928559) = 3735928559 ∧
    get_name_for 3735928559 = "sub_deadbeef" := by
  refine ⟨(c7_block_function_emission.1 ⟨[], 0⟩ 3735928559).1,
    (c7_block_function_emission.2 3735928559 (by norm_num)).2.2.2, ?_⟩
  decide

end RustyX86
